import Mathlib

/-!
Shallow embedding of the checkpoint-ledger and media-capture logic of the
platzi-downloader repository (`src/platzi/progress_tracker.py`,
`src/platzi/helpers.py`, `src/platzi/async_api.py`).

Python dicts are modelled as insertion-ordered association lists
(`List (String × α)`); updating an existing key keeps its position, a new
key is appended, matching CPython dict semantics.  Timestamps produced by
`datetime.now().isoformat()` are passed in as an opaque `now : String`
argument.  Counters stored in the JSON ledger are modelled as `Int`, since
a hand-edited checkpoint file may contain arbitrary integers and the code
clamps decrements with `max(0, x - 1)`.  Python float literals 0.95, 0.85,
0.7 and 0.1 are modelled as the exact rationals they denote.
-/

namespace Platzi

/-- `DownloadStatus` enum of `progress_tracker.py`. -/
inductive DownloadStatus where
  | pending
  | in_progress
  | completed
  | failed
  | skipped
deriving DecidableEq, Repr

/-- One unit record inside a course's `units` dict. -/
structure UnitRec where
  title : String
  status : DownloadStatus
  started_at : Option String
  completed_at : Option String
  error : Option String
deriving DecidableEq, Repr

/-- One course record inside the ledger's `courses` dict. -/
structure CourseRec where
  title : String
  status : DownloadStatus
  learning_path_ids : List String
  started_at : Option String
  completed_at : Option String
  error : Option String
  units : List (String × UnitRec)
deriving DecidableEq, Repr

/-- One learning-path record. -/
structure PathRec where
  title : String
  status : DownloadStatus
  total_courses : Int
  completed_courses : Int
  failed_courses : Int
  started_at : Option String
  completed_at : Option String
deriving DecidableEq, Repr

/-- The `statistics` dict of the ledger. -/
structure Stats where
  total_courses : Int
  completed_courses : Int
  failed_courses : Int
  total_units : Int
  completed_units : Int
  failed_units : Int
deriving DecidableEq, Repr

/-- Entries of the append-only `errors` list (two dict shapes in Python). -/
inductive ErrorRec where
  | courseErr (id title error timestamp : String)
  | unitErr (course_id unit_id title error timestamp : String)
deriving DecidableEq, Repr

/-- The in-memory `self.data` ledger (fields relevant to progress/statistics;
session timestamps and `_metadata` carry no tracked state). -/
structure Ledger where
  learning_paths : List (String × PathRec)
  courses : List (String × CourseRec)
  errors : List ErrorRec
  statistics : Stats
deriving DecidableEq, Repr

/-- Python `d.get(k)` / `k in d` on an insertion-ordered dict. -/
def alistLookup (k : String) : List (String × α) → Option α
  | [] => none
  | (k', v) :: rest => if k' = k then some v else alistLookup k rest

/-- Python `d[k] = v`: replace in place if present, else append. -/
def alistInsert (k : String) (v : α) : List (String × α) → List (String × α)
  | [] => [(k, v)]
  | (k', v') :: rest =>
    if k' = k then (k, v) :: rest else (k', v') :: alistInsert k v rest

/-- Python `del d[k]`. -/
def alistErase (k : String) (l : List (String × α)) : List (String × α) :=
  l.filter (fun p => p.1 != k)

/-- Apply `f` to every value of a dict, keeping keys and order. -/
def mapVals (f : α → α) (l : List (String × α)) : List (String × α) :=
  l.map (fun p => (p.1, f p.2))

/-- Python `base.update(upd)`. -/
def dictUpdate (base upd : List (String × α)) : List (String × α) :=
  upd.foldl (fun acc p => alistInsert p.1 p.2 acc) base

/-- The ledger a fresh tracker initializes before `_load` (all zero/empty). -/
def emptyLedger : Ledger :=
  { learning_paths := []
    courses := []
    errors := []
    statistics :=
      { total_courses := 0, completed_courses := 0, failed_courses := 0
        total_units := 0, completed_units := 0, failed_units := 0 } }

/-- `ProgressTracker.start_learning_path`. -/
def startLearningPath (st : Ledger) (pid title : String) (total : Int)
    (now : String) : Ledger :=
  let p : PathRec :=
    { title := title, status := .in_progress, total_courses := total
      completed_courses := 0, failed_courses := 0
      started_at := some now, completed_at := none }
  { st with learning_paths := alistInsert pid p st.learning_paths }

/-- Units preserved by `start_course` on a retry (empty for a new course). -/
def existingUnitsOf : Option CourseRec → List (String × UnitRec)
  | some c => c.units
  | none => []

/-- `learning_path_ids` preserved by `start_course` on a retry. -/
def existingPathIdsOf : Option CourseRec → List String
  | some c => c.learning_path_ids
  | none => []

/-- `start_course`'s merge of the provided learning-path id: append only
when provided and not already present. -/
def mergePathIds (existing : List String) : Option String → List String
  | some p => if p ∈ existing then existing else existing ++ [p]
  | none => existing

/-- `ProgressTracker.start_course`: create if absent; on retry preserve the
existing units and `started_at`, and merge the given learning-path id into
the list without duplication; bump `total_courses` only when new. -/
def startCourse (st : Ledger) (cid title : String) (lp : Option String)
    (now : String) : Ledger :=
  let existing := alistLookup cid st.courses
  let startedAt :=
    match existing with | some c => c.started_at.getD now | none => now
  let newCourse : CourseRec :=
    { title := title, status := .in_progress
      learning_path_ids := mergePathIds (existingPathIdsOf existing) lp
      started_at := some startedAt, completed_at := none, error := none
      units := existingUnitsOf existing }
  { st with
    courses := alistInsert cid newCourse st.courses
    statistics :=
      if existing.isNone then
        { st.statistics with total_courses := st.statistics.total_courses + 1 }
      else st.statistics }

/-- Bump `completed_courses` of one learning path if it is registered
(the body of the per-path loop in `complete_course`). -/
def bumpPathCompleted (paths : List (String × PathRec)) (pid : String) :
    List (String × PathRec) :=
  match alistLookup pid paths with
  | none => paths
  | some p =>
    alistInsert pid { p with completed_courses := p.completed_courses + 1 } paths

/-- Bump `failed_courses` of one learning path if it is registered. -/
def bumpPathFailed (paths : List (String × PathRec)) (pid : String) :
    List (String × PathRec) :=
  match alistLookup pid paths with
  | none => paths
  | some p =>
    alistInsert pid { p with failed_courses := p.failed_courses + 1 } paths

/-- `ProgressTracker.complete_course`: terminal status, clear error, bump
global and per-path completed counters only when the prior status was not
already `completed`. -/
def completeCourse (st : Ledger) (cid now : String) : Ledger :=
  match alistLookup cid st.courses with
  | none => st
  | some c =>
    let c' := { c with status := .completed, completed_at := some now
                       error := none }
    let stats' :=
      if c.status ≠ .completed then
        { st.statistics with
          completed_courses := st.statistics.completed_courses + 1 }
      else st.statistics
    let paths' :=
      if c.status ≠ .completed then
        c.learning_path_ids.foldl bumpPathCompleted st.learning_paths
      else st.learning_paths
    { st with courses := alistInsert cid c' st.courses
              statistics := stats', learning_paths := paths' }

/-- `ProgressTracker.fail_course`. -/
def failCourse (st : Ledger) (cid error now : String) : Ledger :=
  match alistLookup cid st.courses with
  | none => st
  | some c =>
    let c' := { c with status := .failed, error := some error
                       completed_at := some now }
    let stats' :=
      if c.status ≠ .failed then
        { st.statistics with
          failed_courses := st.statistics.failed_courses + 1 }
      else st.statistics
    let paths' :=
      if c.status ≠ .failed then
        c.learning_path_ids.foldl bumpPathFailed st.learning_paths
      else st.learning_paths
    { st with courses := alistInsert cid c' st.courses
              statistics := stats', learning_paths := paths'
              errors := st.errors ++ [.courseErr cid c.title error now] }

/-- `ProgressTracker.start_unit`: no-op when the course is unknown; replaces
any existing unit record; bumps `total_units` only for a new unit id. -/
def startUnit (st : Ledger) (cid uid title now : String) : Ledger :=
  match alistLookup cid st.courses with
  | none => st
  | some c =>
    let isNew := (alistLookup uid c.units).isNone
    let u : UnitRec :=
      { title := title, status := .in_progress, started_at := some now
        completed_at := none, error := none }
    let c' := { c with units := alistInsert uid u c.units }
    { st with
      courses := alistInsert cid c' st.courses
      statistics :=
        if isNew then
          { st.statistics with total_units := st.statistics.total_units + 1 }
        else st.statistics }

/-- `ProgressTracker.complete_unit`. -/
def completeUnit (st : Ledger) (cid uid now : String) : Ledger :=
  match alistLookup cid st.courses with
  | none => st
  | some c =>
    match alistLookup uid c.units with
    | none => st
    | some u =>
      let u' := { u with status := .completed, completed_at := some now
                         error := none }
      let c' := { c with units := alistInsert uid u' c.units }
      { st with
        courses := alistInsert cid c' st.courses
        statistics :=
          if u.status ≠ .completed then
            { st.statistics with
              completed_units := st.statistics.completed_units + 1 }
          else st.statistics }

/-- `ProgressTracker.fail_unit`. -/
def failUnit (st : Ledger) (cid uid error now : String) : Ledger :=
  match alistLookup cid st.courses with
  | none => st
  | some c =>
    match alistLookup uid c.units with
    | none => st
    | some u =>
      let u' := { u with status := .failed, error := some error
                         completed_at := some now }
      let c' := { c with units := alistInsert uid u' c.units }
      { st with
        courses := alistInsert cid c' st.courses
        statistics :=
          if u.status ≠ .failed then
            { st.statistics with
              failed_units := st.statistics.failed_units + 1 }
          else st.statistics
        errors := st.errors ++ [.unitErr cid uid u.title error now] }

/-- `ProgressTracker.complete_learning_path`. -/
def completeLearningPath (st : Ledger) (pid now : String) : Ledger :=
  match alistLookup pid st.learning_paths with
  | none => st
  | some p =>
    let p' := { p with status := .completed, completed_at := some now }
    { st with learning_paths := alistInsert pid p' st.learning_paths }

/-- The membership test
`status in [PENDING, IN_PROGRESS, FAILED]` of `has_pending_units`. -/
def pendingLike : DownloadStatus → Bool
  | .pending => true
  | .in_progress => true
  | .failed => true
  | _ => false

/-- `ProgressTracker.has_pending_units`. -/
def hasPendingUnits (st : Ledger) (cid : String) : Bool :=
  match alistLookup cid st.courses with
  | none => false
  | some c => c.units.any (fun u => pendingLike u.2.status)

/-- `ProgressTracker.is_course_completed`. -/
def isCourseCompleted (st : Ledger) (cid : String) : Bool :=
  match alistLookup cid st.courses with
  | none => false
  | some c => c.status == .completed

/-- `ProgressTracker.is_unit_completed`. -/
def isUnitCompleted (st : Ledger) (cid uid : String) : Bool :=
  match alistLookup cid st.courses with
  | none => false
  | some c =>
    match alistLookup uid c.units with
    | none => false
    | some u => u.status == .completed

/-- `ProgressTracker.should_skip_course`. -/
def shouldSkipCourse (st : Ledger) (cid : String) : Bool :=
  isCourseCompleted st cid && !hasPendingUnits st cid

/-- `ProgressTracker.should_skip_unit`. -/
def shouldSkipUnit (st : Ledger) (cid uid : String) : Bool :=
  isUnitCompleted st cid uid

/-- The unit loop of `reset_course`: set every unit to pending with cleared
error, decrementing (clamped at 0) the matching global unit counter. -/
def resetUnits : List (String × UnitRec) → Stats →
    List (String × UnitRec) × Stats
  | [], s => ([], s)
  | (uid, u) :: rest, s =>
    let s' :=
      if u.status = .failed then
        { s with failed_units := max 0 (s.failed_units - 1) }
      else if u.status = .completed then
        { s with completed_units := max 0 (s.completed_units - 1) }
      else s
    let r := resetUnits rest s'
    ((uid, { u with status := .pending, error := none, completed_at := none })
       :: r.1, r.2)

/-- `ProgressTracker.reset_course`. -/
def resetCourse (st : Ledger) (cid : String) : Ledger :=
  match alistLookup cid st.courses with
  | none => st
  | some c =>
    let stats1 :=
      if c.status = .failed then
        { st.statistics with
          failed_courses := max 0 (st.statistics.failed_courses - 1) }
      else if c.status = .completed then
        { st.statistics with
          completed_courses := max 0 (st.statistics.completed_courses - 1) }
      else st.statistics
    let r := resetUnits c.units stats1
    let c' := { c with status := .in_progress, error := none
                       completed_at := none, units := r.1 }
    { st with courses := alistInsert cid c' st.courses, statistics := r.2 }

/-- One iteration of the unit loop of `remove_course`: clamped decrement
of the matching unit counter, then of `total_units`. -/
def removeUnitStep (s : Stats) (u : String × UnitRec) : Stats :=
  let s1 :=
    if u.2.status = .completed then
      { s with completed_units := max 0 (s.completed_units - 1) }
    else if u.2.status = .failed then
      { s with failed_units := max 0 (s.failed_units - 1) }
    else s
  { s1 with total_units := max 0 (s1.total_units - 1) }

/-- The unit loop of `remove_course`. -/
def removeUnitsStats (units : List (String × UnitRec)) (s : Stats) : Stats :=
  units.foldl removeUnitStep s

/-- `ProgressTracker.remove_course`. -/
def removeCourse (st : Ledger) (cid : String) : Ledger :=
  match alistLookup cid st.courses with
  | none => st
  | some c =>
    let s1 :=
      if c.status = .completed then
        { st.statistics with
          completed_courses := max 0 (st.statistics.completed_courses - 1) }
      else if c.status = .failed then
        { st.statistics with
          failed_courses := max 0 (st.statistics.failed_courses - 1) }
      else st.statistics
    let s2 := { s1 with total_courses := max 0 (s1.total_courses - 1) }
    let s3 := removeUnitsStats c.units s2
    { st with courses := alistErase cid st.courses, statistics := s3 }

/-- `ProgressTracker.remove_learning_path`. -/
def removeLearningPath (st : Ledger) (pid : String) : Ledger :=
  match alistLookup pid st.learning_paths with
  | none => st
  | some _ => { st with learning_paths := alistErase pid st.learning_paths }

/-- `ProgressTracker.retry_failed_units` (the optional course filter models
the Python truthiness test `if course_id and cid != course_id`). -/
def retryFailedUnits (st : Ledger) (onlyCourse : Option String) : Ledger :=
  { st with courses := st.courses.map (fun p =>
      if (match onlyCourse with
          | some cid => cid != p.1
          | none => false) then p
      else
        (p.1, { p.2 with units := p.2.units.map (fun q =>
          if q.2.status = .failed then
            (q.1, { q.2 with status := .pending, error := none })
          else q) })) }

/-- `ProgressTracker._load`'s merge of a loaded checkpoint into the fresh
default dict: dict-valued top-level keys are merged with `dict.update`,
the rest replaced.  A saved ledger always carries every statistics key, so
the statistics merge amounts to replacement. -/
def mergeLoad (base loaded : Ledger) : Ledger :=
  { learning_paths := dictUpdate base.learning_paths loaded.learning_paths
    courses := dictUpdate base.courses loaded.courses
    errors := loaded.errors
    statistics := loaded.statistics }

/-- The per-unit adjustment of `_validate_on_load`: an interrupted
(`in_progress`) unit is marked pending for retry; everything else kept. -/
def validateUnit (u : UnitRec) : UnitRec :=
  if u.status = .in_progress then { u with status := .pending } else u

/-- `ProgressTracker._validate_on_load` (the ledger mutation it performs:
units of courses marked completed/in_progress get `validateUnit`). -/
def validateOnLoad (st : Ledger) : Ledger :=
  { st with courses := mapVals (fun c =>
      if c.status = .completed ∨ c.status = .in_progress then
        { c with units := mapVals validateUnit c.units }
      else c) st.courses }

/-- Constructing a fresh tracker over a saved ledger: `_load` merges into
the empty default, then `_validate_on_load` runs when `validate_files`. -/
def freshLoad (saved : Ledger) (validateFiles : Bool) : Ledger :=
  let merged := mergeLoad emptyLedger saved
  if validateFiles then validateOnLoad merged else merged

/-- Keys of a string-keyed dict. -/
def alistKeys (l : List (String × α)) : List String :=
  l.map (fun p => p.1)

/-- Key-uniqueness of the dicts of a ledger (guaranteed for any ledger
serialized from Python dicts, whose keys are unique). -/
def ledgerNodupKeys (st : Ledger) : Prop :=
  (alistKeys st.learning_paths).Nodup ∧ (alistKeys st.courses).Nodup ∧
    ∀ p ∈ st.courses, (alistKeys p.2.units).Nodup

/-! ### `helpers.retry` -/

/-- Wait before the next attempt in the synchronous wrapper of
`helpers.retry`: `delay * (2 * i) if backoff else delay`. -/
def syncRetryWait (delay : ℚ) (backoff : Bool) (i : ℕ) : ℚ :=
  if backoff then delay * (2 * i) else delay

/-- Wait before the next attempt in the asynchronous wrapper of
`helpers.retry`: rate-limit-class (429) errors get `delay * (4 * i)`,
otherwise `delay * (2 * i) if backoff else delay`. -/
def asyncRetryWait (delay : ℚ) (backoff : Bool) (isRateLimit : Bool)
    (i : ℕ) : ℚ :=
  if isRateLimit then delay * (4 * i)
  else if backoff then delay * (2 * i) else delay

/-- The retry loop of `helpers.retry`, attempt outcomes given by
`f : attempt index → Except ε α`: attempt `i`, and while failures remain
below the ceiling move on; at the ceiling (`remaining = 0`, i.e.
`i == attempts`) the error of that attempt is re-raised unchanged. -/
def retryAux (f : ℕ → Except ε α) : ℕ → ℕ → Except ε α
  | i, remaining =>
    match f i with
    | .ok a => .ok a
    | .error e =>
      match remaining with
      | 0 => .error e
      | r + 1 => retryAux f (i + 1) r

/-- `for i in range(1, attempts + 1)` of `helpers.retry`. -/
def retryRun (attempts : ℕ) (f : ℕ → Except ε α) : Except ε α :=
  retryAux f 1 (attempts - 1)

/-! ### Browser-interception capture decisions (`async_api.py`) -/

/-- Result of `page.evaluate` for the final near-end check: the video
element's state (`currentTime`/`duration`, non-finite values coerced to 0),
`null` when no video element exists, or an evaluation failure. -/
inductive CheckResult where
  | ok (currentTime duration : ℚ)
  | noVideo
  | evalError
deriving DecidableEq, Repr

/-- The fragment-count stop decision of the monitoring loop
(`async_api.py` lines 980-1029): `true` means `break` (capture stops).
`expected = none` models `expected_fragments` being `None`, and a value of
`0` is falsy in Python, so neither enters the branch. -/
def fragmentStopCheck (expected : Option ℕ) (count : ℕ)
    (check : CheckResult) : Bool :=
  match expected with
  | none => false
  | some exp =>
    if exp = 0 then false
    else if (count : ℚ) ≥ (exp : ℚ) * (95 / 100) then
      match check with
      | .evalError => true
      | .noVideo => false
      | .ok currentTime duration =>
        if duration > 0 then
          decide (currentTime / duration ≥ 1 ∨ duration - currentTime ≤ 15)
        else true
    else false

/-- Outcome of the stuck-playback elif chain
(`async_api.py` lines 851-947), evaluated once the video is detected
stuck. -/
inductive StuckAction where
  | startReload
  | aggressiveSeek
  | midReload
  | giveUpStop
  | keepWaiting
deriving DecidableEq, Repr

/-- The stuck-playback recovery decision chain: immediate reload when
frozen at the start, aggressive seek after 30 s, page reload after 60 s,
and after the reload budget is spent and 90 s stuck, stop accepting a
partial capture only when `count >= expected * 0.85` — otherwise nothing
happens and the loop keeps waiting. -/
def stuckRecoveryAction (currentTime : ℚ) (stuckSeconds : ℕ)
    (reloadCount maxReloads : ℕ) (expected : Option ℕ) (count : ℕ) :
    StuckAction :=
  if currentTime ≤ 5 ∧ stuckSeconds ≥ 30 ∧ reloadCount < maxReloads then
    .startReload
  else if stuckSeconds ≥ 30 ∧ stuckSeconds < 60 ∧ currentTime > 5 then
    .aggressiveSeek
  else if stuckSeconds ≥ 60 ∧ reloadCount < maxReloads then
    .midReload
  else if stuckSeconds ≥ 90 ∧ reloadCount ≥ maxReloads then
    match expected with
    | some exp =>
      if exp ≠ 0 ∧ (count : ℚ) ≥ (exp : ℚ) * (85 / 100) then .giveUpStop
      else .keepWaiting
    | none => .keepWaiting
  else .keepWaiting

/-- The post-capture pipeline result (`async_api.py` lines 1070-1148):
after the monitoring loop ends — however it ended — the function fails on
zero captured fragments, a failed ffmpeg merge, a missing output file, or
an output below 0.1 MB, and reports success otherwise.  The completion
ratio is only logged, never gating success. -/
def finalizeCapture (capturedCount : ℕ) (muxOk outputExists : Bool)
    (outputSizeMB : ℚ) : Bool :=
  if capturedCount = 0 then false
  else if !muxOk then false
  else if !outputExists then false
  else if outputSizeMB < 1 / 10 then false
  else true

/-! ### Orchestrator (`AsyncPlatzi._download_course`) -/

/-- Outcome of downloading one unit. -/
inductive UnitOutcome where
  | success
  | failure (err : String)
deriving DecidableEq, Repr

/-- The unit loop and course completion of `_download_course`: per unit,
skip when already completed, else `start_unit` then `complete_unit` on
success or `fail_unit` on a caught exception (processing continues); after
the loop `complete_course` is called unconditionally. -/
def runCourse (st : Ledger) (cid ctitle : String)
    (units : List (String × String × UnitOutcome)) (now : String) : Ledger :=
  let st1 := startCourse st cid ctitle none now
  let st2 := units.foldl
    (fun s u =>
      if shouldSkipUnit s cid u.1 then s
      else
        let s1 := startUnit s cid u.1 u.2.1 now
        match u.2.2 with
        | .success => completeUnit s1 cid u.1 now
        | .failure e => failUnit s1 cid u.1 e now)
    st1
  completeCourse st2 cid now

/-! ### Operation sequences over the tracker -/

/-- One mutating `ProgressTracker` operation. -/
inductive TrackerOp where
  | startLearningPath (pid title : String) (total : Int) (now : String)
  | startCourse (cid title : String) (lp : Option String) (now : String)
  | completeCourse (cid now : String)
  | failCourse (cid error now : String)
  | startUnit (cid uid title now : String)
  | completeUnit (cid uid now : String)
  | failUnit (cid uid error now : String)
  | completeLearningPath (pid now : String)
  | resetCourse (cid : String)
  | removeCourse (cid : String)
  | removeLearningPath (pid : String)
  | retryFailedUnits (onlyCourse : Option String)

/-- Interpretation of one tracker operation. -/
def applyOp (st : Ledger) : TrackerOp → Ledger
  | .startLearningPath pid title total now =>
      startLearningPath st pid title total now
  | .startCourse cid title lp now => startCourse st cid title lp now
  | .completeCourse cid now => completeCourse st cid now
  | .failCourse cid error now => failCourse st cid error now
  | .startUnit cid uid title now => startUnit st cid uid title now
  | .completeUnit cid uid now => completeUnit st cid uid now
  | .failUnit cid uid error now => failUnit st cid uid error now
  | .completeLearningPath pid now => completeLearningPath st pid now
  | .resetCourse cid => resetCourse st cid
  | .removeCourse cid => removeCourse st cid
  | .removeLearningPath pid => removeLearningPath st pid
  | .retryFailedUnits onlyCourse => retryFailedUnits st onlyCourse

/-- Run a sequence of tracker operations. -/
def applyOps (st : Ledger) (ops : List TrackerOp) : Ledger :=
  ops.foldl applyOp st

/-- All six global statistics counters are nonnegative. -/
def statsNonneg (s : Stats) : Prop :=
  0 ≤ s.total_courses ∧ 0 ≤ s.completed_courses ∧ 0 ≤ s.failed_courses ∧
    0 ≤ s.total_units ∧ 0 ≤ s.completed_units ∧ 0 ≤ s.failed_units

/-! ### Accessors -/

/-- The `units` dict of a tracked course. -/
def courseUnits (st : Ledger) (cid : String) :
    Option (List (String × UnitRec)) :=
  (alistLookup cid st.courses).map CourseRec.units

/-- The `learning_path_ids` list of a tracked course. -/
def coursePathIds (st : Ledger) (cid : String) : Option (List String) :=
  (alistLookup cid st.courses).map CourseRec.learning_path_ids

/-- The status of a tracked course. -/
def courseStatus (st : Ledger) (cid : String) : Option DownloadStatus :=
  (alistLookup cid st.courses).map CourseRec.status

/-- The status of a tracked unit. -/
def unitStatus (st : Ledger) (cid uid : String) : Option DownloadStatus :=
  match alistLookup cid st.courses with
  | none => none
  | some c => (alistLookup uid c.units).map UnitRec.status

/-- The recorded error of a tracked unit. -/
def unitError (st : Ledger) (cid uid : String) : Option (Option String) :=
  match alistLookup cid st.courses with
  | none => none
  | some c => (alistLookup uid c.units).map UnitRec.error

/-! ### Association-list lemmas -/

theorem alistLookup_insert_self (k : String) (v : α)
    (l : List (String × α)) : alistLookup k (alistInsert k v l) = some v := by
  induction l with
  | nil => simp [alistInsert, alistLookup]
  | cons hd tl ih =>
    by_cases h : hd.1 = k
    · simp [alistInsert, alistLookup, h]
    · simp [alistInsert, alistLookup, h, ih]

theorem alistLookup_insert_ne (k k' : String) (v : α)
    (l : List (String × α)) (h : k' ≠ k) :
    alistLookup k' (alistInsert k v l) = alistLookup k' l := by
  have hne : k ≠ k' := fun hh => h hh.symm
  induction l with
  | nil => simp [alistInsert, alistLookup, hne]
  | cons hd tl ih =>
    by_cases h1 : hd.1 = k
    · simp [alistInsert, alistLookup, h1, hne]
    · simp [alistInsert, alistLookup, h1, ih]

/-! ### Claim theorems -/

theorem mem_mergePathIds (l : List String) (p : String) :
    p ∈ mergePathIds l (some p) := by
  by_cases hm : p ∈ l
  · simp [mergePathIds, hm]
  · simp [mergePathIds, hm]

theorem nodup_mergePathIds (l : List String) (lp : Option String)
    (h : l.Nodup) : (mergePathIds l lp).Nodup := by
  cases lp with
  | none => exact h
  | some p =>
    by_cases hm : p ∈ l
    · simpa [mergePathIds, hm] using h
    · simp [mergePathIds, hm, List.nodup_append, h]

/-- C1: repeated `start_course` for the same course id increments
`statistics.total_courses` only on the call that creates the course — a
later call leaves the counter unchanged, preserves the existing units map,
and merges the provided learning-path id into `learning_path_ids` without
introducing a duplicate; likewise repeated `start_unit` for the same unit
id increments `statistics.total_units` only on the creating call. -/
theorem startCourse_startUnit_idempotent
    (st st' : Ledger) (cid t1 t2 uid ut1 ut2 n1 n2 m1 m2 : String)
    (lp1 lp2 : Option String) :
    ((alistLookup cid st.courses).isNone →
      (startCourse st cid t1 lp1 n1).statistics.total_courses
        = st.statistics.total_courses + 1) ∧
    ((alistLookup cid st.courses).isSome →
      (startCourse st cid t1 lp1 n1).statistics.total_courses
        = st.statistics.total_courses) ∧
    (startCourse (startCourse st cid t1 lp1 n1) cid t2 lp2 n2).statistics.total_courses
      = (startCourse st cid t1 lp1 n1).statistics.total_courses ∧
    courseUnits (startCourse (startCourse st cid t1 lp1 n1) cid t2 lp2 n2) cid
      = courseUnits (startCourse st cid t1 lp1 n1) cid ∧
    (∀ p ids2, lp2 = some p →
      coursePathIds (startCourse (startCourse st cid t1 lp1 n1) cid t2 lp2 n2)
          cid = some ids2 →
      p ∈ ids2) ∧
    (∀ ids1 ids2,
      coursePathIds (startCourse st cid t1 lp1 n1) cid = some ids1 →
      coursePathIds (startCourse (startCourse st cid t1 lp1 n1) cid t2 lp2 n2)
          cid = some ids2 →
      ids1.Nodup → ids2.Nodup) ∧
    (∀ c, alistLookup cid st'.courses = some c →
      ((alistLookup uid c.units).isNone →
        (startUnit st' cid uid ut1 m1).statistics.total_units
          = st'.statistics.total_units + 1) ∧
      ((alistLookup uid c.units).isSome →
        (startUnit st' cid uid ut1 m1).statistics.total_units
          = st'.statistics.total_units)) ∧
    (startUnit (startUnit st' cid uid ut1 m1) cid uid ut2 m2).statistics.total_units
      = (startUnit st' cid uid ut1 m1).statistics.total_units := by
  refine ⟨?_, ?_, ?_, ?_, ?_, ?_, ?_, ?_⟩
  · intro h
    simp [startCourse, h, Option.isNone_iff_eq_none.mp h]
  · intro h
    rcases Option.isSome_iff_exists.mp h with ⟨c, hc⟩
    simp [startCourse, hc]
  · simp [startCourse, alistLookup_insert_self]
  · simp [startCourse, courseUnits, alistLookup_insert_self, existingUnitsOf]
  · intro p ids2 hp hids
    subst hp
    simp [startCourse, coursePathIds, alistLookup_insert_self,
      existingPathIdsOf] at hids
    subst hids
    exact mem_mergePathIds _ p
  · intro ids1 ids2 h1 h2 hnd
    simp [startCourse, coursePathIds, alistLookup_insert_self,
      existingPathIdsOf] at h1 h2
    subst h1
    subst h2
    exact nodup_mergePathIds _ _ hnd
  · intro c hc
    constructor
    · intro h
      simp [startUnit, hc, Option.isNone_iff_eq_none.mp h]
    · intro h
      rcases Option.isSome_iff_exists.mp h with ⟨u, hu⟩
      simp [startUnit, hc, hu]
  · cases hc : alistLookup cid st'.courses with
    | none => simp [startUnit, hc]
    | some c =>
      simp [startUnit, hc, alistLookup_insert_self]

/-- C1 witness: the idempotence theorem instantiated at a concrete ledger,
with every hypothesis discharged by evaluation. -/
theorem startCourse_startUnit_idempotent_witness :
    (startCourse emptyLedger "c" "T" (some "p") "t1").statistics.total_courses
      = emptyLedger.statistics.total_courses + 1
    ∧ (startCourse (startCourse emptyLedger "c" "T" (some "p") "t1") "c" "U"
        (some "q") "t2").statistics.total_courses
      = (startCourse emptyLedger "c" "T" (some "p") "t1").statistics.total_courses
    ∧ "q" ∈ (["p", "q"] : List String)
    ∧ (startUnit (startUnit (startCourse emptyLedger "c" "T" (some "p") "t1")
          "c" "u" "UT" "m1") "c" "u" "UT2" "m2").statistics.total_units
      = (startUnit (startCourse emptyLedger "c" "T" (some "p") "t1")
          "c" "u" "UT" "m1").statistics.total_units := by
  have h := startCourse_startUnit_idempotent emptyLedger
    (startCourse emptyLedger "c" "T" (some "p") "t1")
    "c" "T" "U" "u" "UT" "UT2" "t1" "t2" "m1" "m2" (some "p") (some "q")
  exact ⟨h.1 (by decide), h.2.2.1,
    h.2.2.2.2.1 "q" ["p", "q"] rfl (by decide), h.2.2.2.2.2.2.2⟩

theorem pendingLike_eq_true_iff (s : DownloadStatus) :
    pendingLike s = true ↔
      s = .pending ∨ s = .in_progress ∨ s = .failed := by
  cases s <;> simp [pendingLike]

/-- C2: `should_skip_course(id)` returns true iff the course is tracked
with status `completed` and none of its units has status `pending`,
`in_progress` or `failed`; in particular a completed course with one
failed unit is not skippable. -/
theorem shouldSkipCourse_iff (st : Ledger) (cid : String) :
    shouldSkipCourse st cid = true ↔
      ∃ c, alistLookup cid st.courses = some c ∧ c.status = .completed ∧
        ∀ p ∈ c.units, p.2.status ≠ .pending ∧ p.2.status ≠ .in_progress ∧
          p.2.status ≠ .failed := by
  unfold shouldSkipCourse isCourseCompleted hasPendingUnits
  cases hc : alistLookup cid st.courses with
  | none => simp
  | some c =>
    simp [List.any_eq_true, pendingLike_eq_true_iff, not_or, beq_iff_eq]

/-- A ledger with one completed course whose only unit completed. -/
def exSkipLedger : Ledger :=
  completeCourse (completeUnit (startUnit (startCourse emptyLedger "c" "T"
    none "t") "c" "u" "U" "t") "c" "u" "t") "c" "t"

/-- A ledger with one completed course whose only unit failed. -/
def exNoSkipLedger : Ledger :=
  completeCourse (failUnit (startUnit (startCourse emptyLedger "c" "T"
    none "t") "c" "u" "U" "t") "c" "u" "boom" "t") "c" "t"

/-- C2 witness: the characterization applied to a concrete skippable
ledger, plus the failed-unit ledger evaluated to not-skippable. -/
theorem shouldSkipCourse_iff_witness :
    shouldSkipCourse exSkipLedger "c" = true ∧
    shouldSkipCourse exNoSkipLedger "c" = false := by
  refine ⟨(shouldSkipCourse_iff exSkipLedger "c").mpr ?_, by decide⟩
  refine ⟨{ title := "T", status := .completed, learning_path_ids := []
            started_at := some "t", completed_at := some "t", error := none
            units := [("u", { title := "U", status := .completed
                              started_at := some "t"
                              completed_at := some "t", error := none })] },
          by decide, rfl, by decide⟩

/-- C3 counterexample: with the fragment-count estimate known (100) and
the 95 % threshold reached, a failed evaluation of the live video state
stops the capture on the count alone, with no playback-position
corroboration at all; the same happens when the observed duration is 0. -/
theorem fragmentStop_count_alone_counterexample :
    fragmentStopCheck (some 100) 95 CheckResult.evalError = true ∧
    fragmentStopCheck (some 100) 95 (CheckResult.ok 5 0) = true := by
  constructor <;> · unfold fragmentStopCheck; norm_num

/-- C3 amended: the count-triggered stop corroborates near-end whenever
the live video state is actually observed with a positive duration — the
stop then implies position ≥ duration − 15 s; a missing video element
never triggers the count stop; but when the state cannot be evaluated or
reports no duration the fragment count alone stops the capture. -/
theorem fragmentStop_requires_near_end (exp count : ℕ) (ct d : ℚ)
    (hd : 0 < d)
    (h : fragmentStopCheck (some exp) count (.ok ct d) = true) :
    ct ≥ d - 15 ∧ fragmentStopCheck (some exp) count .noVideo = false := by
  constructor
  · unfold fragmentStopCheck at h
    by_cases h0 : exp = 0
    · simp [h0] at h
    · simp only [h0, if_false] at h
      by_cases h95 : (count : ℚ) ≥ (exp : ℚ) * (95 / 100)
      · simp only [h95, if_true, if_pos hd, decide_eq_true_eq] at h
        rcases h with h1 | h1
        · have : d ≤ ct := (one_le_div hd).mp h1
          linarith
        · linarith
      · simp [h95] at h
  · unfold fragmentStopCheck
    by_cases h0 : exp = 0
    · simp [h0]
    · by_cases h95 : (count : ℚ) ≥ (exp : ℚ) * (95 / 100)
      · simp [h0, h95]
      · simp [h0, h95]

/-- C3 witness: the amended theorem at a concrete near-end observation. -/
theorem fragmentStop_requires_near_end_witness :
    (590 : ℚ) ≥ 600 - 15 ∧
    fragmentStopCheck (some 100) 100 .noVideo = false := by
  have h := fragmentStop_requires_near_end 100 100 590 600 (by norm_num)
    (by unfold fragmentStopCheck; norm_num)
  exact h

/-- C5 counterexample: with base delay 1 and backoff enabled, the wait
after failed attempt `i = 3` is `1 * (2 * 3) = 6`, not the exponential
`1 * 2 ^ 3 = 8` the claim requires. -/
theorem retryWait_not_exponential_counterexample :
    asyncRetryWait 1 true false 3 = 6 ∧ syncRetryWait 1 true 3 = 6 ∧
    (1 : ℚ) * 2 ^ 3 = 8 ∧ (6 : ℚ) ≠ 8 := by
  refine ⟨?_, ?_, by norm_num, by norm_num⟩
  · unfold asyncRetryWait; norm_num
  · unfold syncRetryWait; norm_num

theorem retryAux_all_fail (f : ℕ → Except ε α) (e : ℕ → ε)
    (hf : ∀ j, f j = .error (e j)) :
    ∀ (r i : ℕ), retryAux f i r = .error (e (i + r)) := by
  intro r
  induction r with
  | zero => intro i; simp [retryAux, hf i]
  | succ n ih =>
    intro i
    rw [retryAux, hf i]
    have := ih (i + 1)
    simpa [Nat.add_assoc, Nat.add_comm 1 n] using this

/-- C5 amended: the backoff is linear-multiplicative — after failed
attempt `i` the helper waits `delay * (2 * i)` (both wrappers), the async
wrapper waits the steeper `delay * (4 * i)` for rate-limit-class (429)
errors, and when every attempt up to the fixed ceiling fails the error of
the final attempt is re-raised unchanged. -/
theorem retry_backoff_linear_and_reraise (d : ℚ) (i attempts : ℕ)
    (e : ℕ → String) (hd : 0 < d) (hi : 1 ≤ i) (ha : 1 ≤ attempts) :
    asyncRetryWait d true false i = d * (2 * i) ∧
    asyncRetryWait d true true i = d * (4 * i) ∧
    syncRetryWait d true i = d * (2 * i) ∧
    asyncRetryWait d true false i < asyncRetryWait d true true i ∧
    retryRun attempts (fun j => (Except.error (e j) : Except String Unit))
      = .error (e attempts) := by
  have hcast : (1 : ℚ) ≤ (i : ℚ) := by exact_mod_cast hi
  refine ⟨rfl, rfl, rfl, ?_, ?_⟩
  · unfold asyncRetryWait
    simp only [if_true, if_false]
    have h2 : (2 : ℚ) * i < 4 * i := by nlinarith
    exact mul_lt_mul_of_pos_left h2 hd
  · unfold retryRun
    rw [retryAux_all_fail _ e (fun j => rfl) (attempts - 1) 1]
    have h1a : 1 + (attempts - 1) = attempts := by omega
    rw [h1a]

/-- C5 witness: the amended theorem at delay 1, attempt 2, ceiling 3. -/
theorem retry_backoff_linear_and_reraise_witness :
    asyncRetryWait 1 true false 2 = 1 * (2 * 2) ∧
    asyncRetryWait 1 true true 2 = 1 * (4 * 2) ∧
    syncRetryWait 1 true 2 = 1 * (2 * 2) ∧
    asyncRetryWait 1 true false 2 < asyncRetryWait 1 true true 2 ∧
    retryRun 3 (fun _ => (Except.error "boom" : Except String Unit))
      = .error "boom" := by
  have h := retry_backoff_linear_and_reraise 1 2 3 (fun _ => "boom")
    (by norm_num) (by omega) (by omega)
  simpa using h

/-- Number of units of a course currently carrying status `s`. -/
def countUnitsWithStatus (s : DownloadStatus)
    (units : List (String × UnitRec)) : Int :=
  ((units.filter (fun u => u.2.status == s)).length : Int)

theorem countUnitsWithStatus_nil (s : DownloadStatus) :
    countUnitsWithStatus s [] = 0 := rfl

theorem countUnitsWithStatus_cons (s : DownloadStatus)
    (hd : String × UnitRec) (tl : List (String × UnitRec)) :
    countUnitsWithStatus s (hd :: tl) =
      (if hd.2.status = s then 1 else 0) + countUnitsWithStatus s tl := by
  by_cases h : hd.2.status = s
  · simp [countUnitsWithStatus, List.filter_cons, h]
    ring
  · simp [countUnitsWithStatus, List.filter_cons, h]

theorem countUnitsWithStatus_nonneg (s : DownloadStatus)
    (units : List (String × UnitRec)) : 0 ≤ countUnitsWithStatus s units := by
  simp [countUnitsWithStatus]

/-- The unit pass of `reset_course` under counters that dominate the
course's own counts: every unit becomes pending with cleared error, and
the decrements are exact (no clamping fires). -/
theorem resetUnits_spec (units : List (String × UnitRec)) (s : Stats)
    (hc : countUnitsWithStatus .completed units ≤ s.completed_units)
    (hf : countUnitsWithStatus .failed units ≤ s.failed_units) :
    resetUnits units s =
      (units.map (fun u => (u.1,
         { u.2 with
             status := DownloadStatus.pending, error := none,
             completed_at := none })),
       { s with
         completed_units :=
           s.completed_units - countUnitsWithStatus .completed units
         failed_units :=
           s.failed_units - countUnitsWithStatus .failed units }) := by
  induction units generalizing s with
  | nil => simp [resetUnits, countUnitsWithStatus_nil]
  | cons hd tl ih =>
    have hcnn := countUnitsWithStatus_nonneg .completed tl
    have hfnn := countUnitsWithStatus_nonneg .failed tl
    rw [countUnitsWithStatus_cons] at hc
    rw [countUnitsWithStatus_cons] at hf
    by_cases h1 : hd.2.status = .failed
    · have hns : ¬ hd.2.status = .completed := by rw [h1]; intro hx; cases hx
      rw [if_pos h1] at hf
      rw [if_neg hns] at hc
      have hmax : max 0 (s.failed_units - 1) = s.failed_units - 1 :=
        max_eq_right (by omega)
      rw [resetUnits, if_pos h1, hmax]
      rw [ih _ (by (try dsimp only); omega) (by (try dsimp only); omega)]
      simp [countUnitsWithStatus_cons, if_pos h1, if_neg hns]
      omega
    · by_cases h2 : hd.2.status = .completed
      · rw [if_pos h2] at hc
        rw [if_neg h1] at hf
        have hmax : max 0 (s.completed_units - 1) = s.completed_units - 1 :=
          max_eq_right (by omega)
        rw [resetUnits, if_neg h1, if_pos h2, hmax]
        rw [ih _ (by (try dsimp only); omega) (by (try dsimp only); omega)]
        simp [countUnitsWithStatus_cons, if_neg h1, if_pos h2]
        omega
      · rw [if_neg h2] at hc
        rw [if_neg h1] at hf
        rw [resetUnits, if_neg h1, if_neg h2]
        rw [ih _ (by (try dsimp only); omega) (by (try dsimp only); omega)]
        simp [countUnitsWithStatus_cons, if_neg h1, if_neg h2]

/-- A ledger whose statistics are inconsistent with its entities: one
completed course, but `completed_courses = 0`. -/
def inconsistentLedger : Ledger :=
  { emptyLedger with courses :=
      [("c", { title := "T", status := .completed, learning_path_ids := []
               started_at := some "t", completed_at := some "t"
               error := none, units := [] })] }

/-- C4 counterexample: on a ledger whose counters understate the course's
prior completed entities, `reset_course` clamps at zero instead of
decrementing exactly — the claimed equality fails. -/
theorem resetCourse_exact_decrement_counterexample :
    courseStatus inconsistentLedger "c" = some .completed ∧
    (resetCourse inconsistentLedger "c").statistics.completed_courses
      ≠ inconsistentLedger.statistics.completed_courses - 1 := by decide

/-- C4 amended: `reset_course` always forces the course to `in_progress`
with cleared error and every unit to `pending` with cleared error, and —
provided each global counter is at least the course's prior count of
completed/failed entities, as in any consistent ledger — decrements each
counter by exactly that count (the `max 0` clamps otherwise prevent exact
decrements on inconsistent counters). -/
theorem resetCourse_spec (st : Ledger) (cid : String) (c : CourseRec)
    (hc : alistLookup cid st.courses = some c)
    (h1 : (if c.status = .completed then 1 else 0)
            ≤ st.statistics.completed_courses)
    (h2 : (if c.status = .failed then 1 else 0)
            ≤ st.statistics.failed_courses)
    (h3 : countUnitsWithStatus .completed c.units
            ≤ st.statistics.completed_units)
    (h4 : countUnitsWithStatus .failed c.units
            ≤ st.statistics.failed_units) :
    courseStatus (resetCourse st cid) cid = some .in_progress ∧
    (alistLookup cid (resetCourse st cid).courses).map CourseRec.error
      = some none ∧
    courseUnits (resetCourse st cid) cid
      = some (c.units.map (fun u => (u.1,
          { u.2 with
              status := DownloadStatus.pending, error := none,
              completed_at := none }))) ∧
    (resetCourse st cid).statistics =
      { st.statistics with
        completed_courses := st.statistics.completed_courses
          - (if c.status = .completed then 1 else 0)
        failed_courses := st.statistics.failed_courses
          - (if c.status = .failed then 1 else 0)
        completed_units := st.statistics.completed_units
          - countUnitsWithStatus .completed c.units
        failed_units := st.statistics.failed_units
          - countUnitsWithStatus .failed c.units } := by
  have hstats1 :
      (if c.status = .failed then
        { st.statistics with
          failed_courses := max 0 (st.statistics.failed_courses - 1) }
      else if c.status = .completed then
        { st.statistics with
          completed_courses := max 0 (st.statistics.completed_courses - 1) }
      else st.statistics) =
      { st.statistics with
        completed_courses := st.statistics.completed_courses
          - (if c.status = .completed then 1 else 0)
        failed_courses := st.statistics.failed_courses
          - (if c.status = .failed then 1 else 0) } := by
    by_cases hcf : c.status = .failed
    · have hnc : ¬ c.status = .completed := by rw [hcf]; intro hx; cases hx
      rw [hcf] at h2
      simp at h2
      simp [hcf, hnc]
      omega
    · by_cases hcc : c.status = .completed
      · rw [hcc] at h1
        simp at h1
        simp [hcf, hcc]
        omega
      · simp [hcf, hcc]
  unfold resetCourse
  rw [hc]
  simp only
  rw [hstats1]
  rw [resetUnits_spec c.units _ (by simpa using h3) (by simpa using h4)]
  refine ⟨?_, ?_, ?_, ?_⟩
  · simp [courseStatus, alistLookup_insert_self]
  · simp [alistLookup_insert_self]
  · simp [courseUnits, alistLookup_insert_self]
  · simp

/-- C4 witness: the amended reset theorem on a concrete consistent ledger
with one completed and one failed unit. -/
theorem resetCourse_spec_witness :
    courseStatus (resetCourse exNoSkipLedger "c") "c" = some .in_progress ∧
    (resetCourse exNoSkipLedger "c").statistics.completed_courses = 0 ∧
    (resetCourse exNoSkipLedger "c").statistics.failed_units = 0 ∧
    unitStatus (resetCourse exNoSkipLedger "c") "c" "u" = some .pending := by
  have h := resetCourse_spec exNoSkipLedger "c"
    { title := "T", status := .completed, learning_path_ids := []
      started_at := some "t", completed_at := some "t", error := none
      units := [("u", { title := "U", status := .failed
                        started_at := some "t", completed_at := some "t"
                        error := some "boom" })] }
    (by decide) (by decide) (by decide) (by decide) (by decide)
  refine ⟨h.1, ?_, ?_, by decide⟩
  · rw [h.2.2.2]
    decide
  · rw [h.2.2.2]
    decide

/-- C7 counterexample: with the reload budget spent (2/2), playback stuck
for 90 s and only 10 of 100 expected fragments (ratio 0.10 < 0.85), the
stuck handler does nothing (keeps waiting) rather than failing, and the
post-loop pipeline still reports success once the fragments mux into a
plausible output file. -/
theorem partialCapture_no_failure_counterexample :
    stuckRecoveryAction 50 90 2 2 (some 100) 10 = .keepWaiting ∧
    finalizeCapture 10 true true 5 = true ∧
    (10 : ℚ) < 100 * (85 / 100) := by
  refine ⟨?_, by norm_num [finalizeCapture], by norm_num⟩
  unfold stuckRecoveryAction
  norm_num

/-- C7 amended: after the reload budget is spent and playback has been
stuck ≥ 90 s, the capture stops early accepting a partial result exactly
when captured/expected ≥ 0.85; below that ratio it does not fail — the
loop merely keeps waiting, and after the overall timeout the captured
fragments are still muxed, so the pipeline can still report success
regardless of the completion ratio. -/
theorem stuckGiveUp_spec (ct : ℚ) (stuck r m exp count : ℕ)
    (hstuck : 90 ≤ stuck) (hr : m ≤ r) (hexp : exp ≠ 0) :
    stuckRecoveryAction ct stuck r m (some exp) count =
      (if (count : ℚ) ≥ (exp : ℚ) * (85 / 100) then StuckAction.giveUpStop
       else StuckAction.keepWaiting) ∧
    (∀ (c : ℕ) (mux ex : Bool) (size : ℚ), c ≠ 0 → mux = true → ex = true →
      ¬ size < 1 / 10 → finalizeCapture c mux ex size = true) := by
  constructor
  · unfold stuckRecoveryAction
    rw [if_neg (fun h => absurd h.2.2 (by omega))]
    rw [if_neg (fun h => absurd h.2.1 (by omega))]
    rw [if_neg (fun h => absurd h.2 (by omega))]
    rw [if_pos ⟨by omega, hr⟩]
    by_cases hcount : (count : ℚ) ≥ (exp : ℚ) * (85 / 100)
    · simp [hexp, hcount]
    · simp [hexp, hcount]
  · intro c mux ex size hc hmux hex hs
    unfold finalizeCapture
    simp [hc, hmux, hex, hs]
    linarith [not_lt.mp hs]

/-- C7 witness: the amended theorem at an 85 %-complete stuck capture. -/
theorem stuckGiveUp_spec_witness :
    stuckRecoveryAction 50 95 2 2 (some 100) 90 = StuckAction.giveUpStop ∧
    finalizeCapture 90 true true 5 = true := by
  have h := stuckGiveUp_spec 50 95 2 2 100 90 (by omega) (by omega)
    (by omega)
  constructor
  · rw [h.1]
    norm_num
  · exact h.2 90 true true 5 (by omega) rfl rfl (by norm_num)

/-- The three-unit course scenario: units 1 and 3 download, unit 2 fails
with "manifest 404", run through the `_download_course` orchestration. -/
def scenarioLedger : Ledger :=
  runCourse emptyLedger "X" "Course X"
    [("u1", "Unit 1", .success),
     ("u2", "Unit 2", .failure "manifest 404"),
     ("u3", "Unit 3", .success)] "t"

/-- C8: with 3 units of which unit 2 fails, the orchestrator still
completes the course: course status `completed`, unit 2 `failed` with its
error recorded (also in the error log), units 1 and 3 `completed`,
`completed_units` up by 2 and `failed_units` up by 1. -/
theorem course_survives_failed_unit :
    courseStatus scenarioLedger "X" = some .completed ∧
    unitStatus scenarioLedger "X" "u2" = some .failed ∧
    unitError scenarioLedger "X" "u2" = some (some "manifest 404") ∧
    unitStatus scenarioLedger "X" "u1" = some .completed ∧
    unitStatus scenarioLedger "X" "u3" = some .completed ∧
    scenarioLedger.statistics.completed_units
      = emptyLedger.statistics.completed_units + 2 ∧
    scenarioLedger.statistics.failed_units
      = emptyLedger.statistics.failed_units + 1 ∧
    scenarioLedger.errors
      = [.unitErr "X" "u2" "Unit 2" "manifest 404" "t"] := by decide

/-- C9: the interception pipeline reports success iff fragments were
captured, the mux succeeded, and the output file exists with a plausible
size — so it returns false on zero fragments, on mux failure, on a
missing output, and on an implausibly small output. -/
theorem finalizeCapture_success_iff (c : ℕ) (mux ex : Bool) (size : ℚ) :
    finalizeCapture c mux ex size = true ↔
      c ≠ 0 ∧ mux = true ∧ ex = true ∧ ¬ size < 1 / 10 := by
  unfold finalizeCapture
  split_ifs <;> simp_all

/-- C9 witness: the success characterization at concrete inputs. -/
theorem finalizeCapture_success_iff_witness :
    finalizeCapture 42 true true 1 = true ∧
    finalizeCapture 0 true true 1 = false := by
  refine ⟨(finalizeCapture_success_iff 42 true true 1).mpr ?_, rfl⟩
  norm_num

theorem alistKeys_append (l1 l2 : List (String × α)) :
    alistKeys (l1 ++ l2) = alistKeys l1 ++ alistKeys l2 := by
  simp [alistKeys]

theorem alistInsert_notMem (k : String) (v : α) (l : List (String × α))
    (h : k ∉ alistKeys l) : alistInsert k v l = l ++ [(k, v)] := by
  induction l with
  | nil => simp [alistInsert]
  | cons hd tl ih =>
    simp [alistKeys] at h
    have h1 : ¬ hd.1 = k := fun hh => h.1 hh.symm
    have h2 : k ∉ alistKeys tl := by simp [alistKeys, h.2]
    simp [alistInsert, h1, ih h2]

theorem dictUpdate_disjoint :
    ∀ (upd base : List (String × α)),
      (∀ x ∈ alistKeys upd, x ∉ alistKeys base) →
      (alistKeys upd).Nodup → dictUpdate base upd = base ++ upd := by
  intro upd
  induction upd with
  | nil =>
    intro base _ _
    simp [dictUpdate]
  | cons hd tl ih =>
    intro base hdisj hnd
    have hkeys : alistKeys (hd :: tl) = hd.1 :: alistKeys tl := rfl
    rw [hkeys] at hnd
    have hnotin : hd.1 ∉ alistKeys tl := (List.nodup_cons.mp hnd).1
    have hnd' : (alistKeys tl).Nodup := (List.nodup_cons.mp hnd).2
    have hk : hd.1 ∉ alistKeys base := by
      apply hdisj
      rw [hkeys]
      exact List.mem_cons_self _ _
    have step : dictUpdate base (hd :: tl)
        = dictUpdate (alistInsert hd.1 hd.2 base) tl := by
      simp [dictUpdate]
    rw [step, alistInsert_notMem hd.1 hd.2 base hk]
    have hdisj' : ∀ x ∈ alistKeys tl,
        x ∉ alistKeys (base ++ [(hd.1, hd.2)]) := by
      intro x hx
      rw [alistKeys_append]
      intro hmem
      rcases List.mem_append.mp hmem with hmem1 | hmem2
      · exact hdisj x (by rw [hkeys]; exact List.mem_cons_of_mem _ hx) hmem1
      · have hx1 : x = hd.1 := by simpa [alistKeys] using hmem2
        exact hnotin (hx1 ▸ hx)
    rw [ih (base ++ [(hd.1, hd.2)]) hdisj' hnd']
    simp

theorem dictUpdate_nil_left (l : List (String × α))
    (h : (alistKeys l).Nodup) : dictUpdate [] l = l := by
  have := dictUpdate_disjoint l [] (by simp [alistKeys]) h
  simpa using this

theorem mergeLoad_empty (st : Ledger) (h : ledgerNodupKeys st) :
    mergeLoad emptyLedger st = st := by
  obtain ⟨h1, h2, -⟩ := h
  cases st with
  | mk lps cs errs stats =>
    simp only [mergeLoad, emptyLedger]
    congr 1
    · exact dictUpdate_nil_left lps h1
    · exact dictUpdate_nil_left cs h2

theorem alistLookup_mapVals (f : α → α) (k : String)
    (l : List (String × α)) :
    alistLookup k (mapVals f l) = (alistLookup k l).map f := by
  induction l with
  | nil => simp [mapVals, alistLookup]
  | cons hd tl ih =>
    by_cases h : hd.1 = k
    · simp [mapVals, alistLookup, h]
    · simp [mapVals, alistLookup, h]
      exact ih

/-- A saved ledger with an interrupted (in-progress) unit under an
in-progress course. -/
def interruptedLedger : Ledger :=
  { emptyLedger with courses :=
      [("c", { title := "T", status := .in_progress, learning_path_ids := []
               started_at := some "t", completed_at := none, error := none
               units := [("u", { title := "U", status := .in_progress
                                 started_at := some "t", completed_at := none
                                 error := none })] })] }

/-- C6 counterexample: loading a saved ledger into a fresh tracker (file
validation on, as by default) demotes an interrupted `in_progress` unit to
`pending`, so the save→reload round trip is not the identity on unit
statuses. -/
theorem ledger_roundtrip_counterexample :
    unitStatus interruptedLedger "c" "u" = some .in_progress ∧
    unitStatus (freshLoad interruptedLedger true) "c" "u" = some .pending ∧
    freshLoad interruptedLedger true ≠ interruptedLedger := by decide

/-- C6 amended: reloading a saved ledger reproduces the learning-path and
course statuses and all statistics exactly; unit statuses are also
reproduced except that a unit recorded `in_progress` under a course whose
status is `completed` or `in_progress` is demoted to `pending` by on-load
validation; with validation disabled the round trip is the identity. -/
theorem ledger_roundtrip (st : Ledger) (h : ledgerNodupKeys st) :
    freshLoad st false = st ∧
    (freshLoad st true).statistics = st.statistics ∧
    (freshLoad st true).learning_paths = st.learning_paths ∧
    (∀ cid, courseStatus (freshLoad st true) cid = courseStatus st cid) ∧
    (∀ cid c, alistLookup cid st.courses = some c →
      ∀ uid u, alistLookup uid c.units = some u →
        unitStatus (freshLoad st true) cid uid =
          some (if (c.status = .completed ∨ c.status = .in_progress) ∧
                    u.status = .in_progress
                then DownloadStatus.pending else u.status)) := by
  have hm : mergeLoad emptyLedger st = st := mergeLoad_empty st h
  have hft : freshLoad st true = validateOnLoad st := by
    simp [freshLoad, hm]
  refine ⟨by simp [freshLoad, hm], ?_, ?_, ?_, ?_⟩
  · rw [hft]
    rfl
  · rw [hft]
    rfl
  · intro cid
    rw [hft]
    unfold courseStatus validateOnLoad
    simp only
    rw [alistLookup_mapVals]
    cases hc : alistLookup cid st.courses with
    | none => simp
    | some c =>
      by_cases hcs : c.status = .completed ∨ c.status = .in_progress
      · simp [hcs]
      · simp [hcs]
  · intro cid c hc uid u hu
    rw [hft]
    unfold unitStatus validateOnLoad
    simp only
    rw [alistLookup_mapVals, hc]
    simp only [Option.map_some']
    by_cases hcs : c.status = .completed ∨ c.status = .in_progress
    · rw [if_pos hcs]
      simp only
      rw [alistLookup_mapVals, hu]
      simp only [Option.map_some']
      by_cases hus : u.status = .in_progress
      · simp [validateUnit, hus, hcs]
      · simp [validateUnit, hus, hcs]
    · rw [if_neg hcs]
      rw [hu]
      simp [hcs]

/-- C6 witness: the round-trip theorem on a concrete consistent ledger. -/
theorem ledger_roundtrip_witness :
    freshLoad exSkipLedger false = exSkipLedger ∧
    (freshLoad exSkipLedger true).statistics = exSkipLedger.statistics ∧
    unitStatus (freshLoad exSkipLedger true) "c" "u" = some .completed := by
  have h := ledger_roundtrip exSkipLedger ⟨by decide, by decide, by decide⟩
  refine ⟨h.1, h.2.1, ?_⟩
  have h5 := h.2.2.2.2 "c"
    { title := "T", status := .completed, learning_path_ids := []
      started_at := some "t", completed_at := some "t", error := none
      units := [("u", { title := "U", status := .completed
                        started_at := some "t", completed_at := some "t"
                        error := none })] }
    (by decide) "u"
    { title := "U", status := .completed, started_at := some "t"
      completed_at := some "t", error := none }
    (by decide)
  rw [h5]
  decide

theorem resetUnits_statsNonneg (units : List (String × UnitRec)) (s : Stats)
    (h : statsNonneg s) : statsNonneg (resetUnits units s).2 := by
  induction units generalizing s with
  | nil => simpa [resetUnits] using h
  | cons hd tl ih =>
    rw [resetUnits]
    dsimp only
    apply ih
    obtain ⟨a, b, c, d, e, f⟩ := h
    split_ifs
    · exact ⟨a, b, c, d, e, le_max_left 0 _⟩
    · exact ⟨a, b, c, d, le_max_left 0 _, f⟩
    · exact ⟨a, b, c, d, e, f⟩

theorem removeUnitStep_statsNonneg (s : Stats) (u : String × UnitRec)
    (h : statsNonneg s) : statsNonneg (removeUnitStep s u) := by
  obtain ⟨a, b, c, d, e, f⟩ := h
  unfold removeUnitStep
  split_ifs
  · exact ⟨a, b, c, le_max_left 0 _, le_max_left 0 _, f⟩
  · exact ⟨a, b, c, le_max_left 0 _, e, le_max_left 0 _⟩
  · exact ⟨a, b, c, le_max_left 0 _, e, f⟩

theorem removeUnitsStats_statsNonneg (units : List (String × UnitRec))
    (s : Stats) (h : statsNonneg s) :
    statsNonneg (removeUnitsStats units s) := by
  induction units generalizing s with
  | nil => simpa [removeUnitsStats] using h
  | cons hd tl ih =>
    rw [removeUnitsStats, List.foldl_cons]
    exact ih _ (removeUnitStep_statsNonneg s hd h)

theorem applyOp_statsNonneg (st : Ledger) (op : TrackerOp)
    (h : statsNonneg st.statistics) :
    statsNonneg (applyOp st op).statistics := by
  obtain ⟨a, b, c, d, e, f⟩ := h
  cases op with
  | startLearningPath pid title total now =>
    simp only [applyOp, startLearningPath]
    exact ⟨a, b, c, d, e, f⟩
  | startCourse cid title lp now =>
    simp only [applyOp, startCourse]
    split_ifs
    · exact ⟨by dsimp only; omega, b, c, d, e, f⟩
    · exact ⟨a, b, c, d, e, f⟩
  | completeCourse cid now =>
    cases hc : alistLookup cid st.courses with
    | none =>
      simp only [applyOp, completeCourse, hc]
      exact ⟨a, b, c, d, e, f⟩
    | some co =>
      simp only [applyOp, completeCourse, hc]
      split_ifs
      · exact ⟨a, by dsimp only; omega, c, d, e, f⟩
      · exact ⟨a, b, c, d, e, f⟩
  | failCourse cid error now =>
    cases hc : alistLookup cid st.courses with
    | none =>
      simp only [applyOp, failCourse, hc]
      exact ⟨a, b, c, d, e, f⟩
    | some co =>
      simp only [applyOp, failCourse, hc]
      split_ifs
      · exact ⟨a, b, by dsimp only; omega, d, e, f⟩
      · exact ⟨a, b, c, d, e, f⟩
  | startUnit cid uid title now =>
    cases hc : alistLookup cid st.courses with
    | none =>
      simp only [applyOp, startUnit, hc]
      exact ⟨a, b, c, d, e, f⟩
    | some co =>
      simp only [applyOp, startUnit, hc]
      split_ifs
      · exact ⟨a, b, c, by dsimp only; omega, e, f⟩
      · exact ⟨a, b, c, d, e, f⟩
  | completeUnit cid uid now =>
    cases hc : alistLookup cid st.courses with
    | none =>
      simp only [applyOp, completeUnit, hc]
      exact ⟨a, b, c, d, e, f⟩
    | some co =>
      cases hu : alistLookup uid co.units with
      | none =>
        simp only [applyOp, completeUnit, hc, hu]
        exact ⟨a, b, c, d, e, f⟩
      | some u =>
        simp only [applyOp, completeUnit, hc, hu]
        split_ifs
        · exact ⟨a, b, c, d, by dsimp only; omega, f⟩
        · exact ⟨a, b, c, d, e, f⟩
  | failUnit cid uid error now =>
    cases hc : alistLookup cid st.courses with
    | none =>
      simp only [applyOp, failUnit, hc]
      exact ⟨a, b, c, d, e, f⟩
    | some co =>
      cases hu : alistLookup uid co.units with
      | none =>
        simp only [applyOp, failUnit, hc, hu]
        exact ⟨a, b, c, d, e, f⟩
      | some u =>
        simp only [applyOp, failUnit, hc, hu]
        split_ifs
        · exact ⟨a, b, c, d, e, by dsimp only; omega⟩
        · exact ⟨a, b, c, d, e, f⟩
  | completeLearningPath pid now =>
    cases hp : alistLookup pid st.learning_paths with
    | none =>
      simp only [applyOp, completeLearningPath, hp]
      exact ⟨a, b, c, d, e, f⟩
    | some p =>
      simp only [applyOp, completeLearningPath, hp]
      exact ⟨a, b, c, d, e, f⟩
  | resetCourse cid =>
    cases hc : alistLookup cid st.courses with
    | none =>
      simp only [applyOp, resetCourse, hc]
      exact ⟨a, b, c, d, e, f⟩
    | some co =>
      simp only [applyOp, resetCourse, hc]
      apply resetUnits_statsNonneg
      split_ifs
      · exact ⟨a, b, le_max_left 0 _, d, e, f⟩
      · exact ⟨a, le_max_left 0 _, c, d, e, f⟩
      · exact ⟨a, b, c, d, e, f⟩
  | removeCourse cid =>
    cases hc : alistLookup cid st.courses with
    | none =>
      simp only [applyOp, removeCourse, hc]
      exact ⟨a, b, c, d, e, f⟩
    | some co =>
      simp only [applyOp, removeCourse, hc]
      apply removeUnitsStats_statsNonneg
      split_ifs
      · exact ⟨le_max_left 0 _, le_max_left 0 _, c, d, e, f⟩
      · exact ⟨le_max_left 0 _, b, le_max_left 0 _, d, e, f⟩
      · exact ⟨le_max_left 0 _, b, c, d, e, f⟩
  | removeLearningPath pid =>
    cases hp : alistLookup pid st.learning_paths with
    | none =>
      simp only [applyOp, removeLearningPath, hp]
      exact ⟨a, b, c, d, e, f⟩
    | some p =>
      simp only [applyOp, removeLearningPath, hp]
      exact ⟨a, b, c, d, e, f⟩
  | retryFailedUnits onlyCourse =>
    simp only [applyOp, retryFailedUnits]
    exact ⟨a, b, c, d, e, f⟩

/-- C10: starting from any ledger whose six statistics counters are
nonnegative, every sequence of tracker operations keeps them nonnegative —
in particular the decrementing operations `reset_course` and
`remove_course` clamp each counter at zero (via `max(0, x - 1)`) instead
of driving it negative, even on a ledger whose counters disagree with its
entity states. -/
theorem applyOps_statsNonneg (st : Ledger) (ops : List TrackerOp)
    (h : statsNonneg st.statistics) :
    statsNonneg (applyOps st ops).statistics := by
  induction ops generalizing st with
  | nil => simpa [applyOps] using h
  | cons op rest ih =>
    rw [applyOps, List.foldl_cons]
    exact ih _ (applyOp_statsNonneg st op h)

/-- C10 witness: a concrete operation sequence ending in a reset and a
removal on an initially empty ledger. -/
theorem applyOps_statsNonneg_witness :
    statsNonneg (applyOps emptyLedger
      [.startCourse "c" "T" (some "p") "t",
       .startUnit "c" "u" "U" "t",
       .completeUnit "c" "u" "t",
       .completeCourse "c" "t",
       .resetCourse "c",
       .removeCourse "c"]).statistics :=
  applyOps_statsNonneg emptyLedger _
    ⟨by decide, by decide, by decide, by decide, by decide, by decide⟩

end Platzi
